import Mathlib

/-!
Verification development for the barry-platform worker.

The development shallowly embeds the two core modules:

* `src/worker/salesforce.ts` — the credential lifecycle manager: the token
  cache, the conservative-expiry computation, the refresh-response parsing,
  the single-flight refresh, and the authenticated `sfFetch` with its
  retry-once-on-auth-failure logic.  Network effects are modelled by oracles
  (lists of issuer/downstream responses consumed in order), and the
  JavaScript event loop relevant to single-flight is modelled by a small
  step machine whose atomic steps are the synchronous segments between
  `await` points.

* `src/worker/worker.ts` — the job processor: correlation-id derivation,
  the `started`/`completed`/`failed` audit writes, dispatch on the job name,
  and the catch block that records a failure and re-raises.  Database writes
  and the handler bodies are modelled by a world oracle, and the processor
  is a deterministic function that also returns the ordered trace of the
  effects it performed.
-/

namespace Barry

/-! ## Credential store (salesforce.ts) -/

/-- The `TokenCache` record of salesforce.ts: access token, instance URL and
the locally estimated expiry in epoch milliseconds. -/
structure TokenCache where
  accessToken : String
  instanceUrl : String
  expiresAt : Int
deriving DecidableEq, Repr

/-- Environment-derived configuration of the credential manager:
`SKEW_SECONDS` (from `SF_TOKEN_SKEW_SECONDS`, default 60) together with the
frozen value of `Date.now()` used for one synchronous segment. -/
structure SfConfig where
  skewSeconds : Int
  now : Int
deriving DecidableEq, Repr

/-- `isValid(cache)`: a cache is valid when present and not yet expired
(`cache.expiresAt > nowMs()`). -/
def isValid (cfg : SfConfig) : Option TokenCache → Bool
  | none => false
  | some c => decide (c.expiresAt > cfg.now)

/-- `computeExpiresAtConservative(ttlSeconds = 10 * 60)`:
`nowMs() + (ttlSeconds - SKEW_SECONDS) * 1000`. -/
def computeExpiresAtConservative (cfg : SfConfig) (ttlSeconds : Int := 600) : Int :=
  cfg.now + (ttlSeconds - cfg.skewSeconds) * 1000

/-- The possible outcomes of the refresh POST to the issuer token endpoint,
as the code distinguishes them: the fetch itself rejecting, a non-ok HTTP
status, a body `JSON.parse` cannot read, or a parsed JSON body whose
`access_token` / `instance_url` fields may be absent (or empty, which the
truthiness test `!data.access_token` also rejects). -/
inductive IssuerResponse where
  | unreachable
  | httpError (status : Nat) (text : String)
  | malformedBody (text : String)
  | jsonBody (accessToken instanceUrl : Option String) (text : String)
deriving DecidableEq, Repr

/-- JavaScript truthiness of a possibly-absent string field: present and
non-empty. -/
def jsTruthy : Option String → Bool
  | none => false
  | some s => !(s == "")

/-- The body of the refresh IIFE in `refreshAccessToken` after the network
round trip: raise on non-ok status, on an unparsable body, and on a missing
(or empty) `access_token` or `instance_url`; otherwise build the next
`TokenCache` with the conservative expiry. -/
def parseRefresh (cfg : SfConfig) : IssuerResponse → Except String TokenCache
  | .unreachable => .error "fetch failed"
  | .httpError status text =>
      .error ("Salesforce token refresh failed (" ++ toString status ++ "): " ++ text)
  | .malformedBody text => .error ("JSON parse error: " ++ text)
  | .jsonBody tok iu text =>
      match tok, iu with
      | some a, some i =>
          if a == "" || i == "" then
            .error ("Salesforce token response missing fields: " ++ text)
          else
            .ok { accessToken := a, instanceUrl := i,
                  expiresAt := computeExpiresAtConservative cfg }
      | _, _ => .error ("Salesforce token response missing fields: " ++ text)

/-- One refresh attempt acting on the module-level `tokenCache`: the cell is
overwritten with `next` exactly on the success path (`tokenCache = next`
just before `return next`); every failure path throws before that
assignment, leaving the cell untouched.  Returns the cache cell after the
attempt together with the settled outcome. -/
def refreshStep (cfg : SfConfig) (cache : Option TokenCache) (r : IssuerResponse) :
    Option TokenCache × Except String TokenCache :=
  match parseRefresh cfg r with
  | .ok next => (some next, .ok next)
  | .error e => (cache, .error e)

/-- The refresh-failure classes named by the spec: issuer unreachable,
non-ok HTTP status, malformed body, or a response missing (or empty)
`access_token` / `instance_url`. -/
def refreshFailureClass : IssuerResponse → Bool
  | .unreachable => true
  | .httpError _ _ => true
  | .malformedBody _ => true
  | .jsonBody tok iu _ => !(jsTruthy tok && jsTruthy iu)

/-- `isAuthFailure(status, bodyText)`: 401, or 403 whose body contains
`INVALID_SESSION_ID`. -/
def isAuthFailure (status : Nat) (bodyText : String) : Bool :=
  if status == 401 then true
  else if status == 403 && bodyText.containsSubstr "INVALID_SESSION_ID" then true
  else false

/-! ## C6 and C7 -/

/-- Every refresh-failure class makes `parseRefresh` raise. -/
theorem parseRefresh_error_of_failureClass (cfg : SfConfig) (r : IssuerResponse)
    (h : refreshFailureClass r = true) : ∃ e, parseRefresh cfg r = Except.error e := by
  cases r with
  | unreachable => exact ⟨_, rfl⟩
  | httpError s t => exact ⟨_, rfl⟩
  | malformedBody t => exact ⟨_, rfl⟩
  | jsonBody tok iu t =>
      cases tok with
      | none => exact ⟨_, rfl⟩
      | some a =>
          cases iu with
          | none => exact ⟨_, rfl⟩
          | some i =>
              simp only [parseRefresh]
              by_cases ha : a = ""
              · exact ⟨"Salesforce token response missing fields: " ++ t, by simp [ha]⟩
              by_cases hi : i = ""
              · exact ⟨"Salesforce token response missing fields: " ++ t, by simp [hi]⟩
              exfalso
              simp [refreshFailureClass, jsTruthy, ha, hi] at h

/-- C6: on any refresh failure (issuer unreachable, non-ok status, malformed
body, or missing/empty `access_token` or `instance_url`) the attempt settles
with a hard error and the cached credential is exactly what it was before;
the cache is replaced only by a fully successful refresh. -/
theorem refresh_failure_preserves_cache (cfg : SfConfig) (cache : Option TokenCache)
    (r : IssuerResponse) (h : refreshFailureClass r = true) :
    (refreshStep cfg cache r).1 = cache ∧
      ∃ e, (refreshStep cfg cache r).2 = Except.error e := by
  obtain ⟨e, he⟩ := parseRefresh_error_of_failureClass cfg r h
  refine ⟨?_, e, ?_⟩ <;> simp [refreshStep, he]

/-- Witness for C6: a concrete failing refresh (missing `instance_url`)
leaves a concrete prior cache untouched and settles with an error. -/
theorem refresh_failure_preserves_cache_witness :
    (refreshStep ⟨60, 0⟩ (some ⟨"tok0", "https://old", 5000⟩)
        (IssuerResponse.jsonBody (some "tok1") none "body")).1 =
      some ⟨"tok0", "https://old", 5000⟩ ∧
    ∃ e, (refreshStep ⟨60, 0⟩ (some ⟨"tok0", "https://old", 5000⟩)
        (IssuerResponse.jsonBody (some "tok1") none "body")).2 = Except.error e :=
  refresh_failure_preserves_cache ⟨60, 0⟩ (some ⟨"tok0", "https://old", 5000⟩)
    (IssuerResponse.jsonBody (some "tok1") none "body") (by decide)

/-- C7: the conservative expiry is assigned as
`now + (assumedTtl - skew) * 1000` (milliseconds), and whenever the
configured skew is positive — the default is 60 seconds — the stored
`expiresAt` is strictly below `now + assumedTtl * 1000`. -/
theorem computeExpiresAt_conservative (cfg : SfConfig) (ttl : Int) :
    computeExpiresAtConservative cfg ttl = cfg.now + (ttl - cfg.skewSeconds) * 1000 ∧
      (0 < cfg.skewSeconds →
        computeExpiresAtConservative cfg ttl < cfg.now + ttl * 1000) := by
  refine ⟨rfl, fun hpos => ?_⟩
  have h1000 : (0:Int) < 1000 := by norm_num
  have : (ttl - cfg.skewSeconds) * 1000 < ttl * 1000 := by
    have := mul_pos hpos h1000
    nlinarith
  simpa [computeExpiresAtConservative] using this

/-- Witness for C7: with the default skew of 60 seconds and `now = 0` the
assigned expiry is `(600 - 60) * 1000` and lies strictly below
`600 * 1000`. -/
theorem computeExpiresAt_conservative_witness :
    computeExpiresAtConservative ⟨60, 0⟩ 600 = 0 + (600 - 60) * 1000 ∧
      computeExpiresAtConservative ⟨60, 0⟩ 600 < 0 + 600 * 1000 :=
  ⟨(computeExpiresAt_conservative ⟨60, 0⟩ 600).1,
   (computeExpiresAt_conservative ⟨60, 0⟩ 600).2 (by decide)⟩

/-! ## Sequential model of getAccessToken / sfFetch

A single caller's execution of salesforce.ts is sequential between network
round trips, so it is modelled as a state-and-oracle-passing function: the
state is the module-level `tokenCache`, and the oracle lists the issuer
responses and downstream responses the network delivers, consumed in order.
Each consumed issuer entry is one refresh network call; each consumed
downstream entry is one downstream request, which is also logged with the
URL and bearer token it carried. -/

/-- A downstream HTTP response: status and body text. -/
structure HttpResponse where
  status : Nat
  body : String
deriving DecidableEq, Repr

/-- The module-level mutable state of salesforce.ts seen by a single
sequential caller (the in-flight marker matters only under concurrency and
is modelled separately below). -/
structure SfState where
  tokenCache : Option TokenCache
deriving DecidableEq, Repr

/-- The network oracle: issuer responses for successive refresh calls and
downstream responses for successive authenticated requests. -/
structure SfOracle where
  refreshResponses : List IssuerResponse
  fetchResponses : List HttpResponse
deriving DecidableEq, Repr

/-- A downstream request as issued: final URL and the bearer token in the
`Authorization` header. -/
structure DownReq where
  url : String
  bearer : String
deriving DecidableEq, Repr

/-- `refreshAccessToken` for a sequential caller: performs one refresh
network call (consuming one issuer response; an exhausted oracle behaves as
an unreachable issuer) and applies `refreshStep` to the cache. -/
def refreshAccessToken (cfg : SfConfig) (st : SfState) (o : SfOracle) :
    Except String TokenCache × SfState × SfOracle :=
  match o.refreshResponses with
  | [] => (.error "fetch failed", st, o)
  | r :: rest =>
      let p := refreshStep cfg st.tokenCache r
      (p.2, { tokenCache := p.1 }, { o with refreshResponses := rest })

/-- `getAccessToken`: return the cached credential when valid, otherwise
refresh. -/
def getAccessToken (cfg : SfConfig) (st : SfState) (o : SfOracle) :
    Except String TokenCache × SfState × SfOracle :=
  match st.tokenCache with
  | some c =>
      if isValid cfg (some c) then (.ok c, st, o)
      else refreshAccessToken cfg st o
  | none => refreshAccessToken cfg st o

/-- URL construction of `sfFetch`: absolute URLs pass through, otherwise the
path is joined to the credential's instance URL with a slash inserted when
missing. -/
def mkUrl (instanceUrl path : String) : String :=
  if path.startsWith "http" then path
  else instanceUrl ++ (if path.startsWith "/" then "" else "/") ++ path

/-- `sfFetch(path, options)`: obtain a credential, issue the request, and on
a 401 / 403-INVALID_SESSION_ID response perform one forced refresh and one
inline retry with the refreshed credential (the retry is a plain `fetch`,
not a recursive `sfFetch`, so it can never retry again).  Returns the
result, the final state and oracle, and the log of downstream requests
issued. -/
def sfFetch (cfg : SfConfig) (path : String) (noRetry : Bool)
    (st : SfState) (o : SfOracle) :
    Except String HttpResponse × SfState × SfOracle × List DownReq :=
  match getAccessToken cfg st o with
  | (.error e, st1, o1) => (.error e, st1, o1, [])
  | (.ok cache, st1, o1) =>
      let req1 : DownReq := ⟨mkUrl cache.instanceUrl path, cache.accessToken⟩
      match o1.fetchResponses with
      | [] => (.error "fetch failed", st1, o1, [req1])
      | res :: frest =>
          let o2 : SfOracle := { o1 with fetchResponses := frest }
          if !noRetry && (res.status == 401 || res.status == 403) then
            if isAuthFailure res.status res.body then
              match refreshAccessToken cfg st1 o2 with
              | (.error e, st2, o3) => (.error e, st2, o3, [req1])
              | (.ok _, st2, o3) =>
                  match getAccessToken cfg st2 o3 with
                  | (.error e, st3, o4) => (.error e, st3, o4, [req1])
                  | (.ok cache2, st3, o4) =>
                      let req2 : DownReq :=
                        ⟨mkUrl cache2.instanceUrl path, cache2.accessToken⟩
                      match o4.fetchResponses with
                      | [] => (.error "fetch failed", st3, o4, [req1, req2])
                      | res2 :: frest2 =>
                          (.ok res2, st3,
                            { o4 with fetchResponses := frest2 }, [req1, req2])
            else (.ok res, st1, o2, [req1])
          else (.ok res, st1, o2, [req1])

/-! ## C2 and C8 -/

/-- C2: starting from a valid credential, when the first response is an
authentication failure and the issuer answers the forced refresh with a
usable token (and the configured skew is below the 600-second assumed TTL,
as with the default of 60), `sfFetch` consumes exactly one issuer response
(one forced refresh) and issues exactly two downstream requests: the
original and a single retry carrying the refreshed credential's bearer
token and instance URL.  The retry's response is returned as the result
whatever it is — in particular a second consecutive 401 is returned to the
caller, never retried again. -/
theorem sfFetch_retries_exactly_once (cfg : SfConfig) (path : String)
    (c next : TokenCache) (r1 r2 : HttpResponse) (rr : IssuerResponse)
    (frest : List HttpResponse)
    (hvalid : isValid cfg (some c) = true)
    (hauth : isAuthFailure r1.status r1.body = true)
    (hrr : parseRefresh cfg rr = Except.ok next)
    (hskew : cfg.skewSeconds < 600)
    (hfresh : next.expiresAt = computeExpiresAtConservative cfg) :
    sfFetch cfg path false { tokenCache := some c }
        { refreshResponses := [rr], fetchResponses := r1 :: r2 :: frest } =
      (.ok r2, { tokenCache := some next },
        { refreshResponses := [], fetchResponses := frest },
        [⟨mkUrl c.instanceUrl path, c.accessToken⟩,
         ⟨mkUrl next.instanceUrl path, next.accessToken⟩]) := by
  have hstat : (r1.status == 401 || r1.status == 403) = true := by
    by_cases h1 : r1.status = 401
    · simp [h1]
    by_cases h3 : r1.status = 403
    · simp [h3]
    · exfalso
      simp [isAuthFailure, h1, h3] at hauth
  have hnextvalid : isValid cfg (some next) = true := by
    simp only [isValid, hfresh, computeExpiresAtConservative, decide_eq_true_eq]
    nlinarith
  simp only [sfFetch, getAccessToken, hvalid, if_true, refreshAccessToken,
    refreshStep, hrr, Bool.not_false, hstat, Bool.and_self, if_true, hauth,
    hnextvalid]

/-- Witness for C2: concrete run in which both the first and the retried
response are 401 — the second 401 comes back as the result after exactly one
refresh and one retry. -/
theorem sfFetch_retries_exactly_once_witness :
    sfFetch ⟨60, 0⟩ "/services/data" false { tokenCache := some ⟨"t1", "https://a", 10⟩ }
        { refreshResponses := [IssuerResponse.jsonBody (some "t2") (some "https://b") ""],
          fetchResponses := [⟨401, ""⟩, ⟨401, ""⟩] } =
      (.ok ⟨401, ""⟩, { tokenCache := some ⟨"t2", "https://b", 540000⟩ },
        { refreshResponses := [], fetchResponses := [] },
        [⟨mkUrl "https://a" "/services/data", "t1"⟩,
         ⟨mkUrl "https://b" "/services/data", "t2"⟩]) :=
  sfFetch_retries_exactly_once ⟨60, 0⟩ "/services/data"
    ⟨"t1", "https://a", 10⟩ ⟨"t2", "https://b", 540000⟩ ⟨401, ""⟩ ⟨401, ""⟩
    (IssuerResponse.jsonBody (some "t2") (some "https://b") "") []
    (by decide) (by decide) (by rfl) (by decide) (by decide)

/-- C8: starting from a valid credential, any first response that is not an
authentication failure — every 4xx other than 401 / 403-invalid-session,
every 5xx, and every success — is returned to the caller unmodified: no
issuer call is consumed (no refresh), only the one downstream request is
issued (no retry), and the cache is untouched. -/
theorem sfFetch_no_retry_on_non_auth_error (cfg : SfConfig) (path : String)
    (c : TokenCache) (r1 : HttpResponse) (rs : List IssuerResponse)
    (frest : List HttpResponse)
    (hvalid : isValid cfg (some c) = true)
    (hnotauth : isAuthFailure r1.status r1.body = false) :
    sfFetch cfg path false { tokenCache := some c }
        { refreshResponses := rs, fetchResponses := r1 :: frest } =
      (.ok r1, { tokenCache := some c },
        { refreshResponses := rs, fetchResponses := frest },
        [⟨mkUrl c.instanceUrl path, c.accessToken⟩]) := by
  simp only [sfFetch, getAccessToken, hvalid, if_true, Bool.not_false, Bool.true_and]
  by_cases hstat : (r1.status == 401 || r1.status == 403) = true
  · simp [hstat, hnotauth]
  · simp [Bool.eq_false_iff.mpr hstat]

/-- Witness for C8: a concrete 500 response is returned unmodified with no
refresh and no retry. -/
theorem sfFetch_no_retry_on_non_auth_error_witness :
    sfFetch ⟨60, 0⟩ "q" false { tokenCache := some ⟨"t1", "https://a", 10⟩ }
        { refreshResponses := [IssuerResponse.unreachable],
          fetchResponses := [⟨500, "boom"⟩] } =
      (.ok ⟨500, "boom"⟩, { tokenCache := some ⟨"t1", "https://a", 10⟩ },
        { refreshResponses := [IssuerResponse.unreachable], fetchResponses := [] },
        [⟨mkUrl "https://a" "q", "t1"⟩]) :=
  sfFetch_no_retry_on_non_auth_error ⟨60, 0⟩ "q" ⟨"t1", "https://a", 10⟩
    ⟨500, "boom"⟩ [IssuerResponse.unreachable] [] (by decide) (by decide)

/-! ## Event-loop model of the single-flight refresh

Concurrent callers run on one JavaScript event loop, so the interleaving
unit is the synchronous segment between `await` points.  Two segment kinds
matter for `getAccessToken` / `refreshAccessToken`:

* a caller's entry segment (`CMEv.start`): check `isValid(tokenCache)`; if
  valid, resolve immediately with the cached credential; otherwise either
  join the in-flight refresh promise (`if (refreshing) return refreshing`)
  or create it — the async IIFE runs synchronously up to its first `await`,
  so assigning `refreshing` and initiating the refresh network call happen
  within the same atomic segment;

* the settlement segment (`CMEv.settle`): the network response arrives, the
  IIFE continuation parses it (updating `tokenCache` exactly on success),
  the promise settles, every awaiting caller resolves with that settled
  outcome, and the creator's `finally` resets `refreshing` to `null`.

The machine counts every refresh network call issued in `calls`. -/

/-- What one caller of `getAccessToken` is doing. -/
inductive CallerSt where
  | idle
  | waiting
  | done (outcome : Except String TokenCache)

/-- Event-loop state of the credential manager: the `tokenCache` cell,
whether a refresh promise is in flight (`refreshing !== null`), the number
of refresh network calls issued so far, and each caller's status. -/
structure CMState where
  cache : Option TokenCache
  refreshing : Bool
  calls : Nat
  callers : Nat → CallerSt

/-- Update one caller's status. -/
def setCaller (f : Nat → CallerSt) (i : Nat) (v : CallerSt) : Nat → CallerSt :=
  fun j => if j = i then v else f j

/-- Resolve every waiting caller with the settled outcome. -/
def settleCallers (f : Nat → CallerSt) (out : Except String TokenCache) :
    Nat → CallerSt :=
  fun j => match f j with | .waiting => .done out | st => st

/-- The two event kinds: caller `i` runs its entry segment, or the
in-flight refresh settles with issuer response `r`. -/
inductive CMEv where
  | start (i : Nat)
  | settle (r : IssuerResponse)

/-- One atomic event-loop segment; `none` when the event is not enabled
(starting a caller that already ran, or settling with nothing in
flight). -/
def stepCM (cfg : SfConfig) (s : CMState) : CMEv → Option CMState
  | .start i =>
      match s.callers i with
      | .idle =>
          if isValid cfg s.cache then
            match s.cache with
            | some c => some { s with callers := setCaller s.callers i (.done (.ok c)) }
            | none => none
          else if s.refreshing then
            some { s with callers := setCaller s.callers i .waiting }
          else
            some { s with refreshing := true, calls := s.calls + 1, callers := setCaller s.callers i .waiting }
      | _ => none
  | .settle r =>
      if s.refreshing then
        some { cache := (refreshStep cfg s.cache r).1, refreshing := false, calls := s.calls, callers := settleCallers s.callers (refreshStep cfg s.cache r).2 }
      else none

/-- Run a list of events from a state. -/
def runCM (cfg : SfConfig) (s : CMState) : List CMEv → Option CMState
  | [] => some s
  | e :: es =>
      match stepCM cfg s e with
      | some s1 => runCM cfg s1 es
      | none => none

/-- The initial state of a single-flight scenario: some cache contents, no
refresh in flight, no refresh network calls yet, every caller still to
run. -/
def initCM (cache : Option TokenCache) : CMState :=
  { cache := cache, refreshing := false, calls := 0, callers := fun _ => .idle }

/-- Running a concatenation of event lists runs them in sequence. -/
theorem runCM_append (cfg : SfConfig) (l1 l2 : List CMEv) (s : CMState) :
    runCM cfg s (l1 ++ l2) = (runCM cfg s l1).bind fun s1 => runCM cfg s1 l2 := by
  induction l1 generalizing s with
  | nil => simp [runCM]
  | cons e l1 ih =>
      simp only [List.cons_append, runCM]
      cases stepCM cfg s e with
      | none => simp [runCM]
      | some s1 => simpa using ih s1

/-- Joining lemma: while a refresh is in flight and the cache is invalid,
any batch of distinct fresh callers just joins the in-flight operation —
no state change besides marking them waiting, and in particular no
additional refresh network call. -/
theorem runCM_joiners (cfg : SfConfig) (js : List Nat) (s : CMState)
    (hinv : isValid cfg s.cache = false) (href : s.refreshing = true)
    (hnd : js.Nodup) (hidle : ∀ j ∈ js, s.callers j = .idle) :
    ∃ s1, runCM cfg s (js.map CMEv.start) = some s1 ∧
      s1.cache = s.cache ∧ s1.refreshing = true ∧ s1.calls = s.calls ∧
      (∀ j ∈ js, s1.callers j = .waiting) ∧
      (∀ j, j ∉ js → s1.callers j = s.callers j) := by
  induction js generalizing s with
  | nil =>
      exact ⟨s, rfl, rfl, href, rfl, by simp, fun j _ => rfl⟩
  | cons j js ih =>
      have hjidle : s.callers j = .idle := hidle j (by simp)
      have hstep : stepCM cfg s (.start j) =
          some { s with callers := setCaller s.callers j .waiting } := by
        simp [stepCM, hjidle, hinv, href]
      have hnd' : js.Nodup := (List.nodup_cons.mp hnd).2
      have hjnot : j ∉ js := (List.nodup_cons.mp hnd).1
      obtain ⟨s1, hrun, hc, hr, hcalls, hw, hrest⟩ :=
        ih { s with callers := setCaller s.callers j .waiting }
          hinv href hnd'
          (fun k hk => by
            have hkj : k ≠ j := fun h => hjnot (h ▸ hk)
            simpa [setCaller, hkj] using hidle k (by simp [hk]))
      refine ⟨s1, ?_, hc, hr, hcalls, ?_, ?_⟩
      · simpa [runCM, hstep] using hrun
      · intro k hk
        rcases List.mem_cons.mp hk with h | h
        · subst h
          have hks := hrest k hjnot
          rw [hks]
          simp [setCaller]
        · exact hw k h
      · intro k hk
        have hk1 : k ≠ j := fun h => hk (by simp [h])
        have hk2 : k ∉ js := fun h => hk (by simp [h])
        rw [hrest k hk2]
        simp [setCaller, hk1]

/-- C1: if a set of distinct concurrent callers all need a credential while
the cache is invalid — each runs its entry segment before the refresh
settles — then exactly one refresh network call is issued, and once that
single call settles with issuer response `r`, every one of those callers is
resolved with that same call's outcome `parseRefresh r`: the fresh
credential on success, the refresh failure otherwise. -/
theorem single_flight_refresh (cfg : SfConfig) (cache : Option TokenCache)
    (r : IssuerResponse) (i : Nat) (js : List Nat)
    (hinv : isValid cfg cache = false)
    (hnd : (i :: js).Nodup) :
    ∃ s1, runCM cfg (initCM cache) ((i :: js).map CMEv.start ++ [CMEv.settle r]) = some s1 ∧
      s1.calls = 1 ∧
      ∀ j ∈ i :: js, s1.callers j = .done (parseRefresh cfg r) := by
  have hstep0 : stepCM cfg (initCM cache) (.start i) =
      some { cache := cache, refreshing := true, calls := 1, callers := setCaller (fun _ => .idle) i .waiting } := by
    simp [stepCM, initCM, hinv]
  set sA : CMState :=
    { cache := cache, refreshing := true, calls := 1, callers := setCaller (fun _ => .idle) i .waiting } with hsA
  have hnotin : i ∉ js := (List.nodup_cons.mp hnd).1
  obtain ⟨s1, hrun, hc, hr, hcalls, hw, hrest⟩ :=
    runCM_joiners cfg js sA hinv rfl (List.nodup_cons.mp hnd).2
      (fun j hj => by
        have hji : j ≠ i := fun h => hnotin (h ▸ hj)
        simp [hsA, setCaller, hji])
  have hsettle : stepCM cfg s1 (.settle r) =
      some { cache := (refreshStep cfg s1.cache r).1, refreshing := false, calls := s1.calls, callers := settleCallers s1.callers (refreshStep cfg s1.cache r).2 } := by
    simp [stepCM, hr]
  have houtcome : (refreshStep cfg s1.cache r).2 = parseRefresh cfg r := by
    unfold refreshStep
    cases hpr : parseRefresh cfg r <;> simp
  have hwi : s1.callers i = .waiting := by
    rw [hrest i hnotin]
    simp [hsA, setCaller]
  refine ⟨{ cache := (refreshStep cfg s1.cache r).1, refreshing := false, calls := s1.calls, callers := settleCallers s1.callers (refreshStep cfg s1.cache r).2 }, ?_, ?_, ?_⟩
  · have h1 : runCM cfg (initCM cache) ((i :: js).map CMEv.start ++ [CMEv.settle r]) =
        runCM cfg sA (js.map CMEv.start ++ [CMEv.settle r]) := by
      simp only [List.map_cons, List.cons_append, runCM, hstep0]
      rfl
    rw [h1, runCM_append, hrun]
    simp [runCM, hsettle]
  · exact hcalls
  · intro j hj
    rcases List.mem_cons.mp hj with h | h
    · subst h
      show settleCallers s1.callers (refreshStep cfg s1.cache r).2 j = _
      simp [settleCallers, hwi, houtcome]
    · show settleCallers s1.callers (refreshStep cfg s1.cache r).2 j = _
      simp [settleCallers, hw j h, houtcome]

/-- Witness for C1: two concrete concurrent callers, empty cache, and a
refresh that fails (issuer unreachable) — both callers resolve with that
single failed call's outcome and exactly one network call was made. -/
theorem single_flight_refresh_witness :
    ∃ s1, runCM ⟨60, 0⟩ (initCM none)
        (([0, 1].map CMEv.start) ++ [CMEv.settle IssuerResponse.unreachable]) = some s1 ∧
      s1.calls = 1 ∧
      ∀ j ∈ [0, 1], s1.callers j =
        CallerSt.done (parseRefresh ⟨60, 0⟩ IssuerResponse.unreachable) :=
  single_flight_refresh ⟨60, 0⟩ none IssuerResponse.unreachable 0 [1]
    (by rfl) (by decide)

/-- C10: whenever the in-flight refresh settles — successfully or not — the
`refreshing` marker is reset to null by the creator's `finally`; and after a
failed settlement with the cache still invalid, a fresh caller does not
reuse the settled operation but initiates a new refresh network call. -/
theorem refreshing_reset_after_settle (cfg : SfConfig) (s : CMState) (i : Nat)
    (href : s.refreshing = true) (hidle : s.callers i = .idle) :
    (∀ r, ∃ s1, stepCM cfg s (.settle r) = some s1 ∧ s1.refreshing = false) ∧
    (∀ r e, parseRefresh cfg r = Except.error e → isValid cfg s.cache = false →
      ∃ s1 s2, stepCM cfg s (.settle r) = some s1 ∧
        stepCM cfg s1 (.start i) = some s2 ∧
        s2.calls = s.calls + 1 ∧ s2.refreshing = true) := by
  constructor
  · intro r
    refine ⟨{ cache := (refreshStep cfg s.cache r).1, refreshing := false, calls := s.calls, callers := settleCallers s.callers (refreshStep cfg s.cache r).2 }, ?_, rfl⟩
    simp [stepCM, href]
  · intro r e hpr hinv
    have hcache : (refreshStep cfg s.cache r).1 = s.cache := by
      simp [refreshStep, hpr]
    set s1 : CMState :=
      { cache := (refreshStep cfg s.cache r).1, refreshing := false, calls := s.calls, callers := settleCallers s.callers (refreshStep cfg s.cache r).2 } with hs1
    have hstep1 : stepCM cfg s (.settle r) = some s1 := by
      simp [stepCM, href, hs1]
    have hidle1 : settleCallers s.callers (refreshStep cfg s.cache r).2 i = CallerSt.idle := by
      simp [settleCallers, hidle]
    have hinv1 : isValid cfg (refreshStep cfg s.cache r).1 = false := by
      rw [hcache]
      exact hinv
    have hstep2 : stepCM cfg s1 (.start i) =
        some { s1 with refreshing := true, calls := s1.calls + 1, callers := setCaller s1.callers i .waiting } := by
      simp [stepCM, hs1, hidle1, hinv1]
    exact ⟨s1, _, hstep1, hstep2, rfl, rfl⟩

/-- Witness for C10: a concrete in-flight state with an invalid cache and a
failing settlement — the marker is cleared, and a fresh caller then starts
a brand-new refresh call. -/
theorem refreshing_reset_after_settle_witness :
    (∀ r, ∃ s1, stepCM ⟨60, 0⟩ { cache := none, refreshing := true, calls := 1, callers := fun _ => CallerSt.idle } (.settle r) = some s1 ∧ s1.refreshing = false) ∧
    (∀ r e, parseRefresh ⟨60, 0⟩ r = Except.error e → isValid ⟨60, 0⟩ (none : Option TokenCache) = false →
      ∃ s1 s2, stepCM ⟨60, 0⟩ { cache := none, refreshing := true, calls := 1, callers := fun _ => CallerSt.idle } (.settle r) = some s1 ∧
        stepCM ⟨60, 0⟩ s1 (.start 0) = some s2 ∧
        s2.calls = 2 ∧ s2.refreshing = true) :=
  refreshing_reset_after_settle ⟨60, 0⟩
    { cache := none, refreshing := true, calls := 1, callers := fun _ => CallerSt.idle }
    0 rfl rfl

/-! ## Worker processor (worker.ts)

The BullMQ processor closure is modelled as a deterministic function of the
job, a world oracle (outcomes of the `started` insert, the matched handler
body, the `completed` insert and the `failed` insert), and the frozen
`Date.now()` value.  It returns the settled outcome — `Except.error` for a
raised error, `Except.ok none` for the handler branches that `return`
early, `Except.ok (some result)` for the normal success object — together
with the ordered trace of effects that actually happened. -/

/-- A job payload: the `correlation_id` field the worker inspects, plus the
remaining opaque fields. -/
structure JobPayload where
  correlation_id : Option String
  fields : List (String × String)
deriving DecidableEq, Repr

/-- The empty object `{}` used for `job.data || {}`. -/
def emptyPayload : JobPayload := { correlation_id := none, fields := [] }

/-- A dequeued job: broker id, name, and `job.data` (possibly absent). -/
structure WJob where
  id : String
  name : String
  data : Option JobPayload
deriving DecidableEq, Repr

/-- `job.data?.correlation_id || "job-" + job.id + "-" + Date.now()`: the
JavaScript `||` falls through to the synthesized id when the field is
absent — and also when it is present but empty (falsy). -/
def correlationIdOf (job : WJob) (now : Nat) : String :=
  let synth := "job-" ++ job.id ++ "-" ++ toString now
  match job.data with
  | none => synth
  | some d =>
      match d.correlation_id with
      | none => synth
      | some s => if s == "" then synth else s

/-- `job.data || {}` as used by every audit insert. -/
def payloadOrEmpty (job : WJob) : JobPayload := job.data.getD emptyPayload

/-- The job names with a dispatch branch in the processor. -/
def knownJobNames : List String :=
  ["slack-interaction", "slack-command", "verify-user", "create-contact", "create-case"]

/-- Whether some dispatch branch matches the job name. -/
def isKnownJobName (n : String) : Bool := knownJobNames.contains n

/-- Outcome of the matched handler branch: run to the end of the `try`
body, `return` early (the branches that bail out without a `completed`
write), or raise with a message. -/
inductive HandlerOutcome where
  | normal
  | earlyReturn
  | raise (msg : String)
deriving DecidableEq, Repr

/-- The world oracle for one processor execution: outcome of the `started`
insert, of the matched handler body, of the `completed` insert and of the
`failed` insert. -/
structure WWorld where
  startedWrite : Except String Unit
  handlerOutcome : HandlerOutcome
  completedWrite : Except String Unit
  failedWrite : Except String Unit

/-- An observable effect of the processor, in execution order.  The
`writeFailed` action carries the insert's payload
`(error: message, originalPayload: job payload)`.  Downstream Slack and
Salesforce calls happen only inside handler branches, so a trace without a
`runHandler` action performed no downstream call. -/
inductive WAction where
  | writeStarted (correlationId : String) (payload : JobPayload)
  | runHandler (nm : String)
  | writeCompleted (correlationId : String) (payload : JobPayload)
  | writeFailed (correlationId : String) (errMsg : String) (originalPayload : JobPayload)
deriving DecidableEq, Repr

/-- The success object `(ok: true, processedAt: <timestamp>)`. -/
structure WResult where
  ok : Bool
  processedAt : Nat
deriving DecidableEq, Repr

/-- The `catch` block: insert the `failed` entry whose payload is the error
message plus the original job payload, then re-raise the original error;
if that insert itself raises, its error propagates instead. -/
def catchBlock (cid : String) (pl : JobPayload) (msg : String) (w : WWorld)
    (pre : List WAction) : Except String (Option WResult) × List WAction :=
  match w.failedWrite with
  | .ok _ => (.error msg, pre ++ [.writeFailed cid msg pl])
  | .error e2 => (.error e2, pre)

/-- The processor: compute the correlation id, insert `started` (its
failure aborts before the `try` block, so it propagates uncaught and
nothing else runs), dispatch on the name inside `try`, insert `completed`
on normal completion, and on any raise inside the `try` run the `catch`
block. -/
def processJob (job : WJob) (w : WWorld) (now : Nat) :
    Except String (Option WResult) × List WAction :=
  let cid := correlationIdOf job now
  let pl := payloadOrEmpty job
  match w.startedWrite with
  | .error e => (.error e, [])
  | .ok _ =>
      let a0 := WAction.writeStarted cid pl
      if isKnownJobName job.name then
        match w.handlerOutcome with
        | .raise msg => catchBlock cid pl msg w [a0, .runHandler job.name]
        | .earlyReturn => (.ok none, [a0, .runHandler job.name])
        | .normal =>
            match w.completedWrite with
            | .ok _ =>
                (.ok (some { ok := true, processedAt := now }),
                  [a0, .runHandler job.name, .writeCompleted cid pl])
            | .error e2 => catchBlock cid pl e2 w [a0, .runHandler job.name]
      else
        match w.completedWrite with
        | .ok _ =>
            (.ok (some { ok := true, processedAt := now }), [a0, .writeCompleted cid pl])
        | .error e2 => catchBlock cid pl e2 w [a0]

/-- Kinds of processor effects, for stating ordering properties. -/
inductive ActKind where
  | started
  | handler
  | terminal
deriving DecidableEq, Repr

/-- Classify an effect. -/
def kindOf : WAction → ActKind
  | .writeStarted _ _ => .started
  | .runHandler _ => .handler
  | .writeCompleted _ _ => .terminal
  | .writeFailed _ _ _ => .terminal

/-! ## C3, C4, C5, C9 -/

/-- C3: in every execution the `started` write is the first effect and
strictly precedes any handler invocation; a `completed`/`failed` write can
only occur after the handler branch has finished (trace kinds are always a
subsequence started-handler-terminal); and if the `started` insert raises,
the execution aborts with exactly that error, before any handler logic and
with no `completed` or `failed` entry written. -/
theorem audit_write_ordering (job : WJob) (w : WWorld) (now : Nat) :
    (∀ e, w.startedWrite = Except.error e → processJob job w now = (Except.error e, [])) ∧
    (∀ u, w.startedWrite = Except.ok u →
      ((processJob job w now).2).head? =
        some (WAction.writeStarted (correlationIdOf job now) (payloadOrEmpty job))) ∧
    List.map kindOf ((processJob job w now).2) ∈
      ([[], [ActKind.started], [ActKind.started, ActKind.terminal],
        [ActKind.started, ActKind.handler],
        [ActKind.started, ActKind.handler, ActKind.terminal]] : List (List ActKind)) := by
  cases hws : w.startedWrite with
  | error e => simp [processJob, hws]
  | ok u =>
      cases hk : isKnownJobName job.name with
      | false =>
          cases hwc : w.completedWrite with
          | ok u2 => simp [processJob, catchBlock, hws, hk, hwc, kindOf]
          | error e2 =>
              cases hwf : w.failedWrite with
              | ok u3 => simp [processJob, catchBlock, hws, hk, hwc, hwf, kindOf]
              | error e3 => simp [processJob, catchBlock, hws, hk, hwc, hwf, kindOf]
      | true =>
          cases hho : w.handlerOutcome with
          | normal =>
              cases hwc : w.completedWrite with
              | ok u2 => simp [processJob, catchBlock, hws, hk, hho, hwc, kindOf]
              | error e2 =>
                  cases hwf : w.failedWrite with
                  | ok u3 => simp [processJob, catchBlock, hws, hk, hho, hwc, hwf, kindOf]
                  | error e3 => simp [processJob, catchBlock, hws, hk, hho, hwc, hwf, kindOf]
          | earlyReturn => simp [processJob, catchBlock, hws, hk, hho, kindOf]
          | raise msg =>
              cases hwf : w.failedWrite with
              | ok u3 => simp [processJob, catchBlock, hws, hk, hho, hwf, kindOf]
              | error e3 => simp [processJob, catchBlock, hws, hk, hho, hwf, kindOf]

/-- Witness for C3: concrete world whose `started` insert raises — the
execution aborts with that error and an empty effect trace. -/
theorem audit_write_ordering_witness :
    processJob { id := "9", name := "verify-user", data := none }
        { startedWrite := Except.error "db down", handlerOutcome := .normal,
          completedWrite := Except.ok (), failedWrite := Except.ok () } 3 =
      (Except.error "db down", []) :=
  (audit_write_ordering { id := "9", name := "verify-user", data := none }
      { startedWrite := Except.error "db down", handlerOutcome := .normal,
        completedWrite := Except.ok (), failedWrite := Except.ok () } 3).1
    "db down" rfl

/-- C4: when a matched handler raises and audit storage is available, the
processor writes exactly one `failed` entry whose payload is the error's
message together with the original job payload, and then re-raises the
original error unchanged. -/
theorem handler_failure_audit_and_reraise (job : WJob) (w : WWorld) (now : Nat)
    (msg : String)
    (hk : isKnownJobName job.name = true) (hs : w.startedWrite = Except.ok ())
    (hh : w.handlerOutcome = .raise msg) (hf : w.failedWrite = Except.ok ()) :
    processJob job w now =
      (Except.error msg,
       [WAction.writeStarted (correlationIdOf job now) (payloadOrEmpty job),
        WAction.runHandler job.name,
        WAction.writeFailed (correlationIdOf job now) msg (payloadOrEmpty job)]) := by
  simp [processJob, catchBlock, hk, hs, hh, hf]

/-- Witness for C4: a concrete raising handler — one `failed` entry with
the message and original payload, and the original error is the result. -/
theorem handler_failure_audit_and_reraise_witness :
    processJob
        (WJob.mk "5" "create-contact"
          (some (JobPayload.mk (some "corr-1") [("email", "a@b")])))
        { startedWrite := Except.ok (), handlerOutcome := .raise "SF create failed",
          completedWrite := Except.ok (), failedWrite := Except.ok () } 11 =
      (Except.error "SF create failed",
       [WAction.writeStarted "corr-1" (JobPayload.mk (some "corr-1") [("email", "a@b")]),
        WAction.runHandler "create-contact",
        WAction.writeFailed "corr-1" "SF create failed"
          (JobPayload.mk (some "corr-1") [("email", "a@b")])]) :=
  handler_failure_audit_and_reraise _ _ 11 "SF create failed" (by decide) rfl rfl rfl

/-- C5: a job whose name matches no handler branch is a successful no-op:
`started` then `completed` are written, no handler branch runs (hence no
downstream Slack or Salesforce call is made), and the result is the
success object with a completion timestamp. -/
theorem unknown_job_noop_success (job : WJob) (w : WWorld) (now : Nat)
    (hk : isKnownJobName job.name = false) (hs : w.startedWrite = Except.ok ())
    (hc : w.completedWrite = Except.ok ()) :
    processJob job w now =
      (Except.ok (some { ok := true, processedAt := now }),
       [WAction.writeStarted (correlationIdOf job now) (payloadOrEmpty job),
        WAction.writeCompleted (correlationIdOf job now) (payloadOrEmpty job)]) ∧
    ∀ nm, WAction.runHandler nm ∉ (processJob job w now).2 := by
  have h : processJob job w now =
      (Except.ok (some { ok := true, processedAt := now }),
       [WAction.writeStarted (correlationIdOf job now) (payloadOrEmpty job),
        WAction.writeCompleted (correlationIdOf job now) (payloadOrEmpty job)]) := by
    simp [processJob, hk, hs, hc]
  refine ⟨h, fun nm => ?_⟩
  rw [h]
  simp

/-- Witness for C5: the spec's scenario A — job `noop-unknown` with empty
payload is written as `started` then `completed` and succeeds with a
timestamp, with no handler invocation in the trace. -/
theorem unknown_job_noop_success_witness :
    processJob { id := "1", name := "noop-unknown", data := some emptyPayload }
        { startedWrite := Except.ok (), handlerOutcome := .normal,
          completedWrite := Except.ok (), failedWrite := Except.ok () } 99 =
      (Except.ok (some { ok := true, processedAt := 99 }),
       [WAction.writeStarted "job-1-99" emptyPayload,
        WAction.writeCompleted "job-1-99" emptyPayload]) ∧
    ∀ nm, WAction.runHandler nm ∉
      (processJob { id := "1", name := "noop-unknown", data := some emptyPayload }
        { startedWrite := Except.ok (), handlerOutcome := .normal,
          completedWrite := Except.ok (), failedWrite := Except.ok () } 99).2 :=
  unknown_job_noop_success _ _ 99 (by decide) rfl rfl

/-- Counterexample for C9 as stated: a payload whose `correlation_id` field
is present but empty.  The claim says the correlation id then equals that
field, but `||` treats the empty string as falsy and the code synthesizes
`job-<id>-<now>` instead. -/
theorem correlationId_present_empty_counterexample :
    (WJob.mk "42" "slack-command" (some (JobPayload.mk (some "") []))).data =
      some (JobPayload.mk (some "") []) ∧
    correlationIdOf (WJob.mk "42" "slack-command" (some (JobPayload.mk (some "") []))) 7 =
      "job-42-7" ∧
    ("job-42-7" : String) ≠ "" := by
  refine ⟨rfl, ?_, by decide⟩
  rfl

/-- C9 amended: the correlation id equals `payload.correlation_id` when
that field is present and non-empty (truthy); when the field is absent,
empty, or there is no payload, it is synthesized deterministically from the
job id and the current timestamp as `job-<id>-<now>`. -/
theorem correlationId_derivation (job : WJob) (now : Nat) :
    (∀ d s, job.data = some d → d.correlation_id = some s → s ≠ "" →
      correlationIdOf job now = s) ∧
    ((job.data = none ∨
        ∃ d, job.data = some d ∧ (d.correlation_id = none ∨ d.correlation_id = some "")) →
      correlationIdOf job now = "job-" ++ job.id ++ "-" ++ toString now) := by
  constructor
  · intro d s hd hs hne
    simp [correlationIdOf, hd, hs, hne]
  · intro h
    rcases h with h | ⟨d, hd, h⟩
    · simp [correlationIdOf, h]
    · rcases h with h | h <;> simp [correlationIdOf, hd, h]

/-- Witness for C9 amended: a present non-empty field is used verbatim, and
a present empty field falls back to the synthesized id. -/
theorem correlationId_derivation_witness :
    correlationIdOf (WJob.mk "42" "t" (some (JobPayload.mk (some "abc") []))) 7 = "abc" ∧
    correlationIdOf (WJob.mk "42" "t" (some (JobPayload.mk (some "") []))) 7 =
      "job-" ++ "42" ++ "-" ++ toString 7 :=
  ⟨(correlationId_derivation _ 7).1 _ "abc" rfl rfl (by decide),
   (correlationId_derivation _ 7).2 (Or.inr ⟨_, rfl, Or.inr rfl⟩)⟩

end Barry
